import Mathlib

/-
Verification development for the pipeline shell in src/shell.c.

The C program is shallowly embedded: every definition below is translated
from a named function or code region of src/shell.c (line numbers given in
the doc comments).  OS-level behaviour (fork scheduling, signal delivery,
wait events, the /proc files, libc strsignal) is modelled as explicit
inputs: an environment keyed by process id, an event list in arrival
order, and a small-step machine for the fork/signal barrier.
-/

namespace Shell

/-- Signal number of SIGINT on Linux (signal.h). -/
def sigintNum : Nat := 2

/-- Signal number of SIGUSR1 on Linux x86 (signal.h). -/
def sigusr1Num : Nat := 10

/-! ## Data model: struct Command and struct Stats (shell.c lines 31-53) -/

/-- struct Command (shell.c lines 32-38): the parsed command list.
list holds, per command, its words (the trailing NULL sentinel of the C
array is left implicit); num_words_arr stores, as in the C code, the word
count PLUS ONE for the NULL sentinel (shell.c line 299). -/
structure Command where
  list : List (List String)
  num_words_arr : List Nat
  num_commands : Nat
  is_valid : Bool
deriving DecidableEq, Repr

/-- struct Stats (shell.c lines 41-53): one statistics record.
user and sys are the float seconds (ticks divided by the clock-tick rate),
modelled as rationals. -/
structure Stats where
  pid : Int
  cmd : String
  state : Char
  ppid : Int
  user : Rat
  sys : Rat
  excode : Int
  vctx : Int
  nvctx : Int
  exsig : String
deriving DecidableEq, Repr

/-- The zero-initialised Stats value (the C globals are zero-initialised). -/
def emptyStats : Stats :=
  { pid := 0, cmd := "", state := Char.ofNat 0, ppid := 0, user := 0, sys := 0,
    excode := 0, vctx := 0, nvctx := 0, exsig := "" }

/-- The global stats array (shell.c line 57), modelled as a total map from
slot index to record; the C array has five slots and the program only ever
writes indices below the command count, which is at most five. -/
def emptyStatsFun : Nat → Stats := fun _ => emptyStats

/-! ## Process-information sources (shell.c lines 433-560 read them) -/

/-- The fields of /proc/pid/stat that SaveStatisticsFromStat reads
(shell.c lines 459-469): pid, parenthesised command name, state character,
parent pid, user and system CPU ticks, and the raw field 52 exit code. -/
structure StatFile where
  pid : Int
  cmd : String
  state : Char
  ppid : Int
  userTicks : Nat
  sysTicks : Nat
  excodeRaw : Int
deriving DecidableEq, Repr

/-- The two /proc/pid/status fields that SaveStatisticsFromStatus keeps
(shell.c lines 544-551). -/
structure StatusFile where
  vctx : Int
  nvctx : Int
deriving DecidableEq, Repr

/-- Everything the OS exposes about one child process: its two /proc
information sources and the wait status that waitpid will report
(shell.c line 416). -/
structure ProcInfo where
  stat : StatFile
  status : StatusFile
  waitStatus : Nat
deriving DecidableEq, Repr

/-- WIFSIGNALED of sys/wait.h on a raw wait status: the low seven bits are
neither 0 (normal exit) nor 0x7f (stopped). -/
def wifsignaled (status : Nat) : Bool :=
  (status % 128 != 0) && (status % 128 != 127)

/-- WTERMSIG of sys/wait.h: the low seven bits of the raw wait status. -/
def wtermsig (status : Nat) : Nat := status % 128

/-- Models libc strsignal (used at shell.c line 421): a human-readable,
always non-empty signal name; unknown numbers get the catch-all text that
glibc also produces. -/
def strsignal (sig : Nat) : String :=
  if sig = 2 then "Interrupt"
  else if sig = 9 then "Killed"
  else if sig = 11 then "Segmentation fault"
  else if sig = 15 then "Terminated"
  else "Unknown signal"

/-- The command-name cleanup of shell.c lines 476-478: copy from the second
character, for length minus two characters, dropping the parentheses that
/proc/pid/stat puts around the command name. -/
def stripParens (s : String) : String :=
  String.mk ((s.data.drop 1).dropLast)

/-- SaveStatisticsFromStat (shell.c lines 433-488): build the record from
/proc/pid/stat; ticks are divided by the clock-tick rate (sysconf, passed
here as clk), the raw field 52 is divided by 256 with C truncating
division, and exsig is initialised empty. The fields vctx and nvctx are
zeroed because the C designated initialiser at line 484 zeroes them. -/
def SaveStatisticsFromStat (clk : Nat) (env : Nat → ProcInfo) (pid : Nat) : Stats :=
  let f := (env pid).stat
  { pid := f.pid, cmd := stripParens f.cmd, state := f.state, ppid := f.ppid,
    user := (f.userTicks : Rat) / (clk : Rat), sys := (f.sysTicks : Rat) / (clk : Rat),
    excode := Int.tdiv f.excodeRaw 256, vctx := 0, nvctx := 0, exsig := "" }

/-- SaveStatisticsFromStatus (shell.c lines 497-560): overwrite the two
context-switch counters from /proc/pid/status. -/
def SaveStatisticsFromStatus (env : Nat → ProcInfo) (pid : Nat) (s : Stats) : Stats :=
  { s with vctx := (env pid).status.vctx, nvctx := (env pid).status.nvctx }

/-- SaveAndTerminateChild (shell.c lines 408-423) as a record builder:
resolve the statistics from the two /proc sources, then definitively reap
the process with waitpid and, if the reap reports signal termination,
overwrite exsig with the strsignal name. -/
def SaveAndTerminateChild (clk : Nat) (env : Nat → ProcInfo) (pid : Nat) : Stats :=
  let s1 := SaveStatisticsFromStat clk env pid
  let s2 := SaveStatisticsFromStatus env pid s1
  if wifsignaled (env pid).waitStatus then
    { s2 with exsig := strsignal (wtermsig (env pid).waitStatus) }
  else s2

/-! ## The completion-collector wait loop (shell.c lines 107-117) -/

/-- One observation of the waitid call in RunShell: either a descendant
became reapable (waitid returned 0 and info.si_pid carries its pid; the
call also listens for stopped descendants via WSTOPPED), or the blocked
wait was interrupted by an unrelated signal (waitid returned -1 with errno
EINTR).  The loop ends when waitid fails otherwise (no children left). -/
inductive WaitEv where
  | completed (pid : Nat)
  | eintr
deriving DecidableEq, Repr

/-- The visible actions of the collector loop: the non-consuming resolve
of a reported pid from its /proc files, the definitive waitpid reap of
that specific pid, and a retried wait after an EINTR interruption. -/
inductive CollectorAct where
  | resolveStats (pid : Nat)
  | reap (pid : Nat)
  | retryWait
deriving DecidableEq, Repr

/-- Point update of the stats map: the write stats[idx] = record. -/
def updateStats (st : Nat → Stats) (idx : Nat) (v : Stats) : Nat → Stats :=
  fun j => if j = idx then v else st j

/-- The wait loop of RunShell (shell.c lines 107-117) over the arrival
ordered event list: an EINTR observation retries the wait; a completion
observation runs SaveAndTerminateChild with stat index ret_order, which
then increments.  Returns the final stats map and the action trace. -/
def RunWaitLoop (clk : Nat) (env : Nat → ProcInfo) :
    List WaitEv → Nat → (Nat → Stats) → ((Nat → Stats) × List CollectorAct)
  | [], _, st => (st, [])
  | WaitEv.eintr :: rest, retOrder, st =>
    let r := RunWaitLoop clk env rest retOrder st
    (r.1, CollectorAct.retryWait :: r.2)
  | WaitEv.completed p :: rest, retOrder, st =>
    let r := RunWaitLoop clk env rest (retOrder + 1)
      (updateStats st retOrder (SaveAndTerminateChild clk env p))
    (r.1, CollectorAct.resolveStats p :: CollectorAct.reap p :: r.2)

/-- The pids of the completion events, in arrival order. -/
def completedPids (evs : List WaitEv) : List Nat :=
  evs.filterMap (fun e => match e with
    | WaitEv.completed p => some p
    | WaitEv.eintr => none)

/-- The action block one wait observation contributes to the trace. -/
def evActs : WaitEv → List CollectorAct
  | WaitEv.completed p => [CollectorAct.resolveStats p, CollectorAct.reap p]
  | WaitEv.eintr => [CollectorAct.retryWait]

/-- The pids definitively reaped in a collector trace, in order. -/
def reapsOf (tr : List CollectorAct) : List Nat :=
  tr.filterMap (fun a => match a with
    | CollectorAct.reap p => some p
    | _ => none)

/-! ## The report (PrintStatistics, shell.c lines 566-590) -/

/-- One printed report line: the normal form carries the exit code, the
signal-terminated form carries the signal name instead. -/
inductive ReportLine where
  | normal (pid : Int) (cmd : String) (state : Char) (excode : Int) (ppid : Int)
      (user : Rat) (sys : Rat) (vctx : Int) (nvctx : Int)
  | signaled (pid : Int) (cmd : String) (state : Char) (exsig : String) (ppid : Int)
      (user : Rat) (sys : Rat) (vctx : Int) (nvctx : Int)
deriving DecidableEq, Repr

/-- The pid printed on a report line. -/
def reportPid : ReportLine → Int
  | ReportLine.normal pid _ _ _ _ _ _ _ _ => pid
  | ReportLine.signaled pid _ _ _ _ _ _ _ _ => pid

/-- The command name printed on a report line. -/
def reportCmd : ReportLine → String
  | ReportLine.normal _ cmd _ _ _ _ _ _ _ => cmd
  | ReportLine.signaled _ cmd _ _ _ _ _ _ _ => cmd

/-- The exit-code disposition of a report line: present exactly on the
normal form. -/
def reportExcode : ReportLine → Option Int
  | ReportLine.normal _ _ _ excode _ _ _ _ _ => some excode
  | ReportLine.signaled _ _ _ _ _ _ _ _ _ => none

/-- The signal disposition of a report line: present exactly on the
signal-terminated form. -/
def reportExsig : ReportLine → Option String
  | ReportLine.normal _ _ _ _ _ _ _ _ _ => none
  | ReportLine.signaled _ _ _ exsig _ _ _ _ _ => some exsig

/-- The skip test of shell.c line 571: a record is omitted from the report
exactly when its exit code is 1 (the EXIT_FAILURE status a child uses when
execvp fails, shell.c line 194) and its signal name is empty. -/
def includeInReport (s : Stats) : Bool :=
  !((s.excode == 1) && (s.exsig == ""))

/-- The line printed for one included record (shell.c lines 573-588):
normal form when exsig is empty, signal form otherwise. -/
def statLine (s : Stats) : ReportLine :=
  if s.exsig == "" then
    ReportLine.normal s.pid s.cmd s.state s.excode s.ppid s.user s.sys s.vctx s.nvctx
  else
    ReportLine.signaled s.pid s.cmd s.state s.exsig s.ppid s.user s.sys s.vctx s.nvctx

/-- PrintStatistics (shell.c lines 566-590): walk the slots 0 to
num_commands - 1 in order, print every record that passes the skip test. -/
def PrintStatistics (numCommands : Nat) (st : Nat → Stats) : List ReportLine :=
  (List.range numCommands).filterMap (fun i =>
    if includeInReport (st i) then some (statLine (st i)) else none)

/-! ## CheckExceptions (shell.c lines 209-236) -/

/-- What a cycle does after the exception check: refresh the prompt loop,
run the pipeline, or terminate the shell (the exit command). -/
inductive CheckResult where
  | refresh
  | proceed
  | terminate
deriving DecidableEq, Repr

/-- Result of CheckExceptions together with the diagnostic lines it
printed. -/
structure CheckOut where
  result : CheckResult
  output : List String
deriving DecidableEq, Repr

/-- Diagnostic of shell.c line 214. -/
def maxCommandsMsg : String := "Shell: The maximum allowed number of commands is 5"

/-- Diagnostic of shell.c line 224. -/
def terminatedMsg : String := "Shell: Terminated"

/-- Diagnostic of shell.c line 230. -/
def exitArgsMsg : String := "Shell: \"exit\" with other arguments!!!"

/-- Fallback for reading the first word of the first command. -/
def defaultWord : String := ""

/-- The keyword compared against at shell.c line 219. -/
def exitWord : String := "exit"

/-- First argument of the first command (command.list[0][0]). -/
def firstWord (c : Command) : String :=
  (c.list.headD []).headD defaultWord

/-- CheckExceptions (shell.c lines 209-236): an invalid descriptor is
rejected silently; more than five commands are rejected with a diagnostic;
a lone exit terminates the shell; exit with extra arguments is rejected
with a diagnostic; anything else proceeds to execution. -/
def CheckExceptions (c : Command) : CheckOut :=
  if c.is_valid = false then { result := CheckResult.refresh, output := [] }
  else if 5 < c.num_commands then
    { result := CheckResult.refresh, output := [maxCommandsMsg] }
  else if firstWord c = exitWord then
    if c.num_words_arr.headD 0 = 2 then
      { result := CheckResult.terminate, output := [terminatedMsg] }
    else { result := CheckResult.refresh, output := [exitArgsMsg] }
  else { result := CheckResult.proceed, output := [] }

/-! ## Pipe topology (ExecuteCommands child wiring, shell.c lines 144-182;
parent side, shell.c lines 92-103, 131-135) -/

/-- The two ends of one anonymous pipe: pfd[i][0] is the read end,
pfd[i][1] the write end. -/
inductive PipeEnd where
  | readEnd
  | writeEnd
deriving DecidableEq, Repr

/-- A file-descriptor action a child performs before suspending: dup2 of
one pipe end onto a standard stream, or close of one pipe end. -/
inductive FdAction where
  | dup (channel : Nat) (e : PipeEnd) (target : Nat)
  | closeFd (channel : Nat) (e : PipeEnd)
deriving DecidableEq, Repr

/-- The close loop every child runs (shell.c lines 153-157, 165-169,
176-180): both ends of every one of the numCommands - 1 pipes, read end
first as in the C code. -/
def closeAllPipes (numCommands : Nat) : List FdAction :=
  ((List.range (numCommands - 1)).map (fun c =>
    [FdAction.closeFd c PipeEnd.readEnd, FdAction.closeFd c PipeEnd.writeEnd])).flatten

/-- The descriptor actions of the child at position idx of a pipeline of n
stages (shell.c lines 145-182): nothing when n = 1; otherwise the first
child dups pipe 0 write end onto stdout, the last child dups pipe n-2 read
end onto stdin, an interior child dups both neighbours, and every child
then closes both ends of every pipe. -/
def childFdActions (n idx : Nat) : List FdAction :=
  if 1 < n then
    if idx = 0 then
      FdAction.dup 0 PipeEnd.writeEnd 1 :: closeAllPipes n
    else if idx = n - 1 then
      FdAction.dup (idx - 1) PipeEnd.readEnd 0 :: closeAllPipes n
    else
      FdAction.dup (idx - 1) PipeEnd.readEnd 0 ::
      FdAction.dup idx PipeEnd.writeEnd 1 :: closeAllPipes n
  else []

/-- Test for a dup action. -/
def isDup : FdAction → Bool
  | FdAction.dup _ _ _ => true
  | FdAction.closeFd _ _ => false

/-- The rebinding actions of a child, in order. -/
def dupsOf (l : List FdAction) : List FdAction := l.filter isDup

/-! ## Controller-side cycle effects (RunShell, shell.c lines 78-122, and
ExecuteCommands, shell.c lines 129-201) -/

/-- An observable side effect of the controller during one cycle, in
program order: a printed line, a pipe creation carrying the success of the
pipe call (whose result shell.c line 134 discards), a fork, the SIGUSR1
release sent to a recorded child, or the parent closing one pipe end. -/
inductive Effect where
  | printLine (s : String)
  | pipeCreate (i : Nat) (ok : Bool)
  | forkChild (i : Nat)
  | sendRelease (i : Nat)
  | closePipeFd (c : Nat) (e : PipeEnd)
deriving DecidableEq, Repr

/-- ExecuteCommands in the parent (shell.c lines 131-200): first the pipe
creation loop, whose per-call success pok i is ignored, then the fork
loop that records one child pid per command index.  The fork loop runs
regardless of the pipe outcomes. -/
def ExecuteCommandsEffects (pok : Nat → Bool) (n : Nat) : List Effect :=
  (List.range (n - 1)).map (fun i => Effect.pipeCreate i (pok i)) ++
  (List.range n).map Effect.forkChild

/-- The release broadcast of shell.c lines 93-96: SIGUSR1 to every
recorded child, in launch order. -/
def releaseEffects (n : Nat) : List Effect :=
  (List.range n).map Effect.sendRelease

/-- The parent close loop of shell.c lines 99-103: both ends of every
pipe, after the broadcast. -/
def parentCloseEffects (n : Nat) : List Effect :=
  ((List.range (n - 1)).map (fun c =>
    [Effect.closePipeFd c PipeEnd.readEnd, Effect.closePipeFd c PipeEnd.writeEnd])).flatten

/-- The controller effects of one executed pipeline, in program order:
pipes and forks (ExecuteCommands), then the release broadcast, then the
parent closes (RunShell lines 92-103). -/
def pipelineEffects (pok : Nat → Bool) (n : Nat) : List Effect :=
  ExecuteCommandsEffects pok n ++ releaseEffects n ++ parentCloseEffects n

/-- Test for an effect that allocates a pipe or spawns a process. -/
def isPipeOrFork : Effect → Bool
  | Effect.pipeCreate _ _ => true
  | Effect.forkChild _ => true
  | _ => false

/-! ## Signal handling (shell.c lines 597-630) and input (lines 244-271) -/

/-- The two flag globals of shell.c lines 58-59. -/
structure ShellFlags where
  is_waiting_input : Bool
  sigint_received : Bool
deriving DecidableEq, Repr

/-- SignalHandler (shell.c lines 620-630): on SIGINT, set the received
flag only when the shell is waiting for input; on SIGUSR1 and anything
else do nothing. The handler is a pure flag update: it kills nothing and
never exits. -/
def SignalHandler (sigNum : Nat) (f : ShellFlags) : ShellFlags :=
  if sigNum = sigintNum then
    if f.is_waiting_input then { f with sigint_received := true } else f
  else f

/-- The fgets character loop: read at most budget characters, stopping
after (and including) the first newline, or at end of stream. -/
def fgetsChars : Nat → List Char → List Char
  | 0, _ => []
  | _ + 1, [] => []
  | budget + 1, c :: rest =>
    if c = Char.ofNat 10 then [c] else c :: fgetsChars budget rest

/-- Models fgets(buf, bufSize, stdin) at shell.c line 253: at most
bufSize - 1 characters are consumed in one call. -/
def fgetsModel (bufSize : Nat) (stream : List Char) : List Char :=
  fgetsChars (bufSize - 1) stream

/-! ## One prompt cycle of RunShell (shell.c lines 78-122) -/

/-- The inputs one cycle consumes from its environment: the stdin
characters, whether SIGINT was delivered while the controller was blocked
in fgets, the descriptor the (excluded) parsing collaborator produced for
this line, and the wait observations of the cycle in arrival order. -/
structure CycleIn where
  raw : List Char
  sigintDuringRead : Bool
  parsed : Command
  waitEvents : List WaitEv
deriving Repr

/-- How one cycle ends: back to a fresh prompt, a pipeline was run, or
the shell terminated (exit command). -/
inductive CycleResult where
  | reprompt
  | ranPipeline
  | exited
deriving DecidableEq, Repr

/-- Everything one cycle produced: the line fgets consumed, the outcome,
the flag globals afterwards, the controller side effects, the final stats
map and the printed report. -/
structure CycleOut where
  lineRead : List Char
  result : CycleResult
  flags : ShellFlags
  effects : List Effect
  statsFinal : Nat → Stats
  report : List ReportLine

/-- The flag globals right after fgets returns (GetInputCommands, shell.c
lines 246-253): the waiting flag was raised before the read, and the
SIGINT handler ran during the read if the signal arrived then. -/
def cycleFlagsAfterRead (inp : CycleIn) (f0 : ShellFlags) : ShellFlags :=
  let f1 := { f0 with is_waiting_input := true }
  if inp.sigintDuringRead then SignalHandler sigintNum f1 else f1

/-- The descriptor the cycle actually checks: a received SIGINT forces it
invalid, discarding the input line (shell.c lines 254-259); otherwise it
is the descriptor the (excluded) parsing collaborator produced. -/
def checkedCmd (inp : CycleIn) (f0 : ShellFlags) : Command :=
  if (cycleFlagsAfterRead inp f0).sigint_received then
    { inp.parsed with is_valid := false }
  else inp.parsed

/-- The flag globals when GetInputCommands returns: the SIGINT-discard
path clears the received flag (shell.c line 257); the valid-parse path
lowers the waiting flag (line 270); the invalid-parse path returns early
at line 265 and changes neither. -/
def cycleFlagsFinal (inp : CycleIn) (f0 : ShellFlags) : ShellFlags :=
  let f2 := cycleFlagsAfterRead inp f0
  if f2.sigint_received then { f2 with sigint_received := false }
  else if inp.parsed.is_valid then { f2 with is_waiting_input := false } else f2

/-- One iteration of the RunShell loop (shell.c lines 80-122), with
GetInputCommands (lines 244-271) inlined: raise the waiting flag, read the
line with a 1025-byte buffer, run the SIGINT handler if the signal arrived
during the read; a received SIGINT discards the input (the descriptor is
forced invalid and the flag is cleared, lines 254-259).  The checked
descriptor then drives CheckExceptions, and only the proceed outcome
creates pipes, forks, broadcasts the release, closes the parent pipe ends
and collects completions; the report is printed only when at least one
completion arrived (line 120). -/
def shellCycle (clk : Nat) (inp : CycleIn) (f0 : ShellFlags) (env : Nat → ProcInfo)
    (pok : Nat → Bool) : CycleOut :=
  match (CheckExceptions (checkedCmd inp f0)).result with
  | CheckResult.refresh =>
    { lineRead := fgetsModel 1025 inp.raw, result := CycleResult.reprompt,
      flags := cycleFlagsFinal inp f0,
      effects := (CheckExceptions (checkedCmd inp f0)).output.map Effect.printLine,
      statsFinal := emptyStatsFun, report := [] }
  | CheckResult.terminate =>
    { lineRead := fgetsModel 1025 inp.raw, result := CycleResult.exited,
      flags := cycleFlagsFinal inp f0,
      effects := (CheckExceptions (checkedCmd inp f0)).output.map Effect.printLine,
      statsFinal := emptyStatsFun, report := [] }
  | CheckResult.proceed =>
    { lineRead := fgetsModel 1025 inp.raw, result := CycleResult.ranPipeline,
      flags := cycleFlagsFinal inp f0,
      effects := (CheckExceptions (checkedCmd inp f0)).output.map Effect.printLine ++
        pipelineEffects pok (checkedCmd inp f0).num_commands,
      statsFinal := (RunWaitLoop clk env inp.waitEvents 0 emptyStatsFun).1,
      report := if (completedPids inp.waitEvents).length = 0 then []
                else PrintStatistics (checkedCmd inp f0).num_commands
                  (RunWaitLoop clk env inp.waitEvents 0 emptyStatsFun).1 }

/-! ## The release barrier as a small-step machine (InstallHandler,
shell.c lines 597-612; the child phases of ExecuteCommands, lines 142-196;
the broadcast of RunShell, lines 93-96) -/

/-- Where one child stands: not yet forked; forked and performing its
dup2/close descriptor setup (SIGUSR1 it may already have been sent stays
pending, because InstallHandler blocked it process-wide before any fork
and the mask is inherited); suspended in sigsuspend with only SIGUSR1
deliverable; or past sigsuspend, its image replaced by execvp. -/
inductive ChildPhase where
  | unborn
  | wiring
  | suspended
  | execed
deriving DecidableEq, Repr

/-- The controller-and-children state of one executed pipeline: the stage
count, how many children the fork loop has created, how many SIGUSR1
releases the broadcast loop has sent (it sends to children 0, 1, ... in
order), and each child phase. -/
structure BarrierState where
  n : Nat
  forked : Nat
  sent : Nat
  phases : List ChildPhase
deriving DecidableEq, Repr

/-- The schedulable steps: the parent forks the next child; a child
finishes its descriptor setup and reaches sigsuspend; the parent sends the
next release signal (only possible once the fork loop is done, because the
kill loop of shell.c lines 93-96 runs after ExecuteCommands returns); a
child consumes its pending release and execs (only possible once it is
suspended, because the signal is blocked until sigsuspend, and only if its
release was sent). -/
inductive BarrierAction where
  | fork
  | wire (i : Nat)
  | broadcast
  | wake (i : Nat)
deriving DecidableEq, Repr

/-- One step of the barrier machine; none when the action is not enabled. -/
def barrierStep (s : BarrierState) : BarrierAction → Option BarrierState
  | BarrierAction.fork =>
    if s.forked < s.n then
      some { s with
               phases := s.phases.set s.forked ChildPhase.wiring
               forked := s.forked + 1 }
    else none
  | BarrierAction.wire i =>
    if s.phases.getD i ChildPhase.unborn = ChildPhase.wiring then
      some { s with phases := s.phases.set i ChildPhase.suspended }
    else none
  | BarrierAction.broadcast =>
    if s.forked = s.n ∧ s.sent < s.n then some { s with sent := s.sent + 1 }
    else none
  | BarrierAction.wake i =>
    if s.phases.getD i ChildPhase.unborn = ChildPhase.suspended ∧ i < s.sent then
      some { s with phases := s.phases.set i ChildPhase.execed }
    else none

/-- Run a schedule of barrier actions from a state. -/
def runBarrier (s : BarrierState) : List BarrierAction → Option BarrierState
  | [] => some s
  | a :: rest =>
    match barrierStep s a with
    | some s2 => runBarrier s2 rest
    | none => none

/-- The cycle-start state: no child forked, no release sent.  SIGUSR1 is
already blocked process-wide (InstallHandler, shell.c lines 601-604). -/
def initBarrier (n : Nat) : BarrierState :=
  { n := n, forked := 0, sent := 0, phases := List.replicate n ChildPhase.unborn }

/-- The barrier invariant: the phase list keeps its length, the fork and
send counters stay within the stage count, a release is only ever sent
after the fork loop finished, and a child has only execed if its release
was sent. -/
def BarrierInv (s : BarrierState) : Prop :=
  s.phases.length = s.n ∧ s.forked ≤ s.n ∧ s.sent ≤ s.n ∧
  (0 < s.sent → s.forked = s.n) ∧
  (∀ i, s.phases.getD i ChildPhase.unborn = ChildPhase.execed → i < s.sent)

/-- Child i has at least finished its descriptor setup: it is suspended at
sigsuspend or already past it. -/
def PhaseStarted (s : BarrierState) (i : Nat) : Prop :=
  s.phases.getD i ChildPhase.unborn = ChildPhase.suspended ∨
  s.phases.getD i ChildPhase.unborn = ChildPhase.execed

/-! ## Concrete runs used as witnesses and counterexamples -/

/-- A schedule of the two-stage barrier machine in which both children are
forked, wired and released. -/
def c1GoodTrace : List BarrierAction :=
  [BarrierAction.fork, BarrierAction.fork, BarrierAction.wire 0, BarrierAction.wire 1,
   BarrierAction.broadcast, BarrierAction.broadcast, BarrierAction.wake 0,
   BarrierAction.wake 1]

/-- The state c1GoodTrace reaches. -/
def c1FinalState : BarrierState :=
  { n := 2, forked := 2, sent := 2,
    phases := [ChildPhase.execed, ChildPhase.execed] }

/-- A legal schedule of the two-stage barrier machine in which the parent
forks both children and broadcasts, child 0 wires, suspends and execs,
all while child 1 has not yet finished its descriptor setup. -/
def c1CexTrace : List BarrierAction :=
  [BarrierAction.fork, BarrierAction.fork, BarrierAction.broadcast,
   BarrierAction.broadcast, BarrierAction.wire 0, BarrierAction.wake 0]

/-- The state c1CexTrace reaches: stage 0 execed, stage 1 still wiring. -/
def c1CexState : BarrierState :=
  { n := 2, forked := 2, sent := 2,
    phases := [ChildPhase.execed, ChildPhase.wiring] }

/-- A two-stage run for the collector: the pids the fork loop recorded in
children_pids, in launch order (stage 0 first). -/
def c2ChildrenPids : List Nat := [100, 101]

/-- Process information for the collector runs: every pid reports itself
in its stat file, zero CPU ticks and a normal exit status of zero. -/
def c2Env : Nat → ProcInfo := fun pid =>
  { stat := { pid := (pid : Int), cmd := "(sleep)", state := 'S', ppid := 99,
              userTicks := 0, sysTicks := 0, excodeRaw := 0 },
    status := { vctx := 0, nvctx := 0 }, waitStatus := 0 }

/-- Completion events in which stage 1 (pid 101) finishes before stage 0
(pid 100). -/
def c2Events : List WaitEv := [WaitEv.completed 101, WaitEv.completed 100]

/-- The parsed descriptor of the input line false | true. -/
def ftParsed : Command :=
  { list := [["false"], ["true"]], num_words_arr := [2, 2],
    num_commands := 2, is_valid := true }

/-- The OS view of the false | true run: pid 101 runs false (normal exit,
raw wait status 256, so exit code 1) and pid 102 runs true (normal exit,
status 0); neither is signal-terminated. -/
def ftEnv : Nat → ProcInfo := fun pid =>
  if pid = 101 then
    { stat := { pid := 101, cmd := "(false)", state := 'Z', ppid := 99,
                userTicks := 0, sysTicks := 0, excodeRaw := 256 },
      status := { vctx := 1, nvctx := 1 }, waitStatus := 256 }
  else
    { stat := { pid := 102, cmd := "(true)", state := 'Z', ppid := 99,
                userTicks := 0, sysTicks := 0, excodeRaw := 0 },
      status := { vctx := 1, nvctx := 1 }, waitStatus := 0 }

/-- The cycle inputs of the false | true run: no interrupt, and the false
stage (pid 101) happens to complete first. -/
def ftIn : CycleIn :=
  { raw := "false | true\n".data, sigintDuringRead := false, parsed := ftParsed,
    waitEvents := [WaitEv.completed 101, WaitEv.completed 102] }

/-- A six-stage descriptor with a true validity flag. -/
def sixValidCmd : Command :=
  { list := [["a"], ["b"], ["c"], ["d"], ["e"], ["f"]],
    num_words_arr := [2, 2, 2, 2, 2, 2], num_commands := 6, is_valid := true }

/-- A six-stage descriptor whose validity flag is false. -/
def sixInvalidCmd : Command :=
  { list := [["a"], ["b"], ["c"], ["d"], ["e"], ["f"]],
    num_words_arr := [2, 2, 2, 2, 2, 2], num_commands := 6, is_valid := false }

/-- An environment in which every pid was killed by signal 15 (SIGTERM):
raw wait status 15 means signal termination with that signal. -/
def sigEnv : Nat → ProcInfo := fun _ =>
  { stat := { pid := 300, cmd := "(sleep)", state := 'S', ppid := 99,
              userTicks := 0, sysTicks := 0, excodeRaw := 15 },
    status := { vctx := 0, nvctx := 0 }, waitStatus := 15 }

/-- Cycle inputs in which SIGINT arrives while the controller is blocked
in fgets. -/
def c9In : CycleIn :=
  { raw := "ls -l\n".data, sigintDuringRead := true, parsed := ftParsed,
    waitEvents := [] }

/-- The character used to build a long newline-free input line. -/
def inputChar : Char := Char.ofNat 97

/-! ## Helper lemmas -/

/-- The modelled strsignal never returns an empty name. -/
theorem strsignal_ne_empty (sig : Nat) : strsignal sig ≠ "" := by
  unfold strsignal
  split_ifs <;> decide

/-- Reading a set list with a default. -/
theorem getD_set_general {α : Type} (l : List α) (i j : Nat) (v d : α) :
    (l.set i v).getD j d = if i = j ∧ i < l.length then v else l.getD j d := by
  induction l generalizing i j with
  | nil => simp [List.getD]
  | cons a t ih =>
    cases i with
    | zero =>
      cases j <;> simp [List.set, List.getD]
    | succ i =>
      cases j with
      | zero => simp [List.set, List.getD]
      | succ j =>
        simp only [List.set, List.getD_cons_succ, List.length_cons, ih i j]
        by_cases hij : i = j <;> simp [hij]

/-- Reading the all-unborn phase list gives unborn everywhere. -/
theorem getD_replicate_unborn (n i : Nat) :
    (List.replicate n ChildPhase.unborn).getD i ChildPhase.unborn = ChildPhase.unborn := by
  induction n generalizing i with
  | zero => simp [List.getD]
  | succ n ih =>
    cases i with
    | zero => simp [List.replicate, List.getD]
    | succ i => simp [List.replicate, List.getD, ih i]

/-- Printed diagnostics are neither pipe creations nor forks. -/
theorem any_map_printLine (out : List String) :
    ((out.map Effect.printLine).any isPipeOrFork) = false := by
  induction out with
  | nil => rfl
  | cons h t ih => simp [List.any_cons, isPipeOrFork, ih]

/-- The close loop contains no dup action. -/
theorem dupsOf_closeAllPipes (n : Nat) : dupsOf (closeAllPipes n) = [] := by
  unfold closeAllPipes dupsOf
  induction List.range (n - 1) with
  | nil => rfl
  | cons a t ih => simp [List.filter, isDup, ih]

/-- Filtering the dups of a list starting with a dup action. -/
theorem dupsOf_cons_dup (c : Nat) (e : PipeEnd) (t : Nat) (l : List FdAction) :
    dupsOf (FdAction.dup c e t :: l) = FdAction.dup c e t :: dupsOf l := by
  simp [dupsOf, List.filter, isDup]

/-- Both ends of every existing pipe appear in the child close loop. -/
theorem mem_closeAllPipes {c n : Nat} (h : c < n - 1) (e : PipeEnd) :
    FdAction.closeFd c e ∈ closeAllPipes n := by
  unfold closeAllPipes
  rw [List.mem_flatten]
  refine ⟨[FdAction.closeFd c PipeEnd.readEnd, FdAction.closeFd c PipeEnd.writeEnd], ?_, ?_⟩
  · exact List.mem_map_of_mem _ (List.mem_range.mpr h)
  · cases e <;> simp

/-- Both ends of every existing pipe appear in the parent close loop. -/
theorem mem_parentCloseEffects {c n : Nat} (h : c < n - 1) (e : PipeEnd) :
    Effect.closePipeFd c e ∈ parentCloseEffects n := by
  unfold parentCloseEffects
  rw [List.mem_flatten]
  refine ⟨[Effect.closePipeFd c PipeEnd.readEnd, Effect.closePipeFd c PipeEnd.writeEnd], ?_, ?_⟩
  · exact List.mem_map_of_mem _ (List.mem_range.mpr h)
  · cases e <;> simp

/-- An over-limit or invalid descriptor makes CheckExceptions refresh. -/
theorem checkExceptions_refresh_of {c : Command}
    (h : 5 < c.num_commands ∨ c.is_valid = false) :
    (CheckExceptions c).result = CheckResult.refresh := by
  rcases h with h5 | hv
  · by_cases hv : c.is_valid = false
    · simp [CheckExceptions, hv]
    · simp [CheckExceptions, hv, if_neg (by omega : ¬ c.num_commands ≤ 5), h5]
  · simp [CheckExceptions, hv]

/-! ## Claim C5 -/

/-- C5: the claim says a pipe-creation failure is detected and aborts the
cycle before any fork.  The code (shell.c line 134) discards the return
value of the pipe call: in the embedded ExecuteCommands of a two-stage
pipeline whose only pipe call fails, the fork loop still spawns both
children, so the failure is neither detected nor propagated. -/
theorem C5_pipe_failure_ignored :
    ExecuteCommandsEffects (fun _ => false) 2 =
      [Effect.pipeCreate 0 false, Effect.forkChild 0, Effect.forkChild 1] ∧
    Effect.forkChild 0 ∈ ExecuteCommandsEffects (fun _ => false) 2 ∧
    Effect.forkChild 1 ∈ ExecuteCommandsEffects (fun _ => false) 2 := by
  decide

/-! ## Claim C6 -/

/-- C6 counterexample: a descriptor with six stages whose validity flag is
false is rejected, but no diagnostic line is printed, because
CheckExceptions (shell.c line 211) returns on the invalid flag before the
over-limit check at line 212 can print; this refutes the claim that every
over-limit descriptor gets a diagnostic line. -/
theorem C6_counterexample :
    5 < sixInvalidCmd.num_commands ∧
    (CheckExceptions sixInvalidCmd).result = CheckResult.refresh ∧
    (CheckExceptions sixInvalidCmd).output = [] := by
  decide

/-- C6 (amended): a descriptor with more than five stages or an invalid
flag is rejected as a no-op cycle: CheckExceptions refreshes, and the
cycle that checks it creates no pipe and forks no child; the over-limit
diagnostic is printed when the validity flag is true. -/
theorem C6_rejection (c : Command) (h : 5 < c.num_commands ∨ c.is_valid = false) :
    (CheckExceptions c).result = CheckResult.refresh ∧
    (∀ (clk : Nat) (inp : CycleIn) (f0 : ShellFlags) (env : Nat → ProcInfo)
       (pok : Nat → Bool), inp.parsed = c → inp.sigintDuringRead = false →
       f0.sigint_received = false →
       ((shellCycle clk inp f0 env pok).effects).any isPipeOrFork = false) ∧
    (5 < c.num_commands → c.is_valid = true →
      (CheckExceptions c).output = [maxCommandsMsg]) := by
  refine ⟨checkExceptions_refresh_of h, ?_, ?_⟩
  · intro clk inp f0 env pok hp hs hf
    have hcc : checkedCmd inp f0 = c := by
      simp [checkedCmd, cycleFlagsAfterRead, hs, hf, hp]
    have hr : (CheckExceptions (checkedCmd inp f0)).result = CheckResult.refresh := by
      rw [hcc]; exact checkExceptions_refresh_of h
    unfold shellCycle
    rw [hr]
    simp only [hcc]
    exact any_map_printLine _
  · intro h5 hv
    simp [CheckExceptions, hv, if_neg (by omega : ¬ c.num_commands ≤ 5), h5]

/-- C6 witness: the six-stage valid descriptor is over the limit and gets
exactly the diagnostic line. -/
theorem C6_rejection_witness :
    (CheckExceptions sixValidCmd).output = [maxCommandsMsg] :=
  (C6_rejection sixValidCmd (Or.inl (by decide))).2.2 (by decide) rfl

/-! ## Claim C3 -/

/-- C3: the claim says the report of the pipeline false | true contains a
record for the false stage.  Running the embedded cycle on that input, the
false stage (pid 101) exits normally with code 1 and no signal name, which
is exactly the could-not-execute sentinel of shell.c line 571, so its
record is dropped from the report; only the true stage (pid 102) is
printed.  The stats slot of the false stage does hold a normal-exit record
with code 1 and an empty signal name. -/
theorem C3_false_true_report :
    ((shellCycle 100 ftIn ⟨false, false⟩ ftEnv (fun _ => true)).statsFinal 0).cmd =
      ("false") ∧
    ((shellCycle 100 ftIn ⟨false, false⟩ ftEnv (fun _ => true)).statsFinal 0).excode = 1 ∧
    ((shellCycle 100 ftIn ⟨false, false⟩ ftEnv (fun _ => true)).statsFinal 0).exsig = "" ∧
    (shellCycle 100 ftIn ⟨false, false⟩ ftEnv (fun _ => true)).report.map reportPid =
      [102] ∧
    (shellCycle 100 ftIn ⟨false, false⟩ ftEnv (fun _ => true)).report.map reportCmd =
      [("true")] ∧
    (shellCycle 100 ftIn ⟨false, false⟩ ftEnv (fun _ => true)).report.map reportExcode =
      [some 0] ∧
    (shellCycle 100 ftIn ⟨false, false⟩ ftEnv (fun _ => true)).report.map reportExsig =
      [none] := by
  decide

/-! ## Collector lemmas and claims C2, C7 -/

/-- Slots below the running counter are never rewritten by the rest of the
wait loop. -/
theorem runWaitLoop_stats_lt (clk : Nat) (env : Nat → ProcInfo) :
    ∀ (evs : List WaitEv) (k0 j : Nat) (st : Nat → Stats), j < k0 →
      (RunWaitLoop clk env evs k0 st).1 j = st j := by
  intro evs
  induction evs with
  | nil => intro k0 j st _; rfl
  | cons e rest ih =>
    intro k0 j st hj
    cases e with
    | eintr => exact ih k0 j st hj
    | completed p =>
      have h2 := ih (k0 + 1) j
        (updateStats st k0 (SaveAndTerminateChild clk env p)) (by omega)
      simp only [RunWaitLoop]
      rw [h2]
      simp [updateStats, Nat.ne_of_lt hj]

/-- The wait loop stores the record of the j-th completion at slot
counter-start plus j. -/
theorem runWaitLoop_slot (clk : Nat) (env : Nat → ProcInfo) :
    ∀ (evs : List WaitEv) (k0 j : Nat) (st : Nat → Stats),
      j < (completedPids evs).length →
      (RunWaitLoop clk env evs k0 st).1 (k0 + j) =
        SaveAndTerminateChild clk env ((completedPids evs).getD j 0) := by
  intro evs
  induction evs with
  | nil => intro k0 j st hj; simp [completedPids] at hj
  | cons e rest ih =>
    intro k0 j st hj
    cases e with
    | eintr =>
      have hlen : (completedPids (WaitEv.eintr :: rest)).length =
          (completedPids rest).length := by simp [completedPids]
      have : (completedPids (WaitEv.eintr :: rest)).getD j 0 =
          (completedPids rest).getD j 0 := by simp [completedPids]
      rw [this]
      exact ih k0 j st (by rw [hlen] at hj; exact hj)
    | completed p =>
      have hpids : completedPids (WaitEv.completed p :: rest) =
          p :: completedPids rest := by simp [completedPids]
      cases j with
      | zero =>
        simp only [RunWaitLoop, Nat.add_zero, hpids, List.getD_cons_zero]
        rw [runWaitLoop_stats_lt clk env rest (k0 + 1) k0 _ (by omega)]
        simp [updateStats]
      | succ j =>
        rw [hpids] at hj ⊢
        simp only [List.getD_cons_succ, List.length_cons] at hj ⊢
        have := ih (k0 + 1) j
          (updateStats st k0 (SaveAndTerminateChild clk env p)) (by omega)
        simp only [RunWaitLoop]
        rw [show k0 + (j + 1) = (k0 + 1) + j by omega]
        exact this

/-- C2 counterexample: the children were launched with pids 100 (stage 0)
and 101 (stage 1), and stage 1 completed first.  The record stored at slot
0 carries pid 101, the stage-1 process, because SaveAndTerminateChild is
called with the running arrival counter ret_order as its slot index
(shell.c line 115) and the arriving pid is never matched against
children_pids; this refutes the claim that the record at index i belongs
to the stage at pipeline position i. -/
theorem C2_counterexample :
    c2ChildrenPids.getD 0 0 = 100 ∧
    ((RunWaitLoop 100 c2Env c2Events 0 emptyStatsFun).1 0).pid = 101 ∧
    ((RunWaitLoop 100 c2Env c2Events 0 emptyStatsFun).1 1).pid = 100 := by
  refine ⟨rfl, ?_, ?_⟩ <;> rfl

/-- C2 (amended): the Statistics Record at slot k is the record of the
k-th process to complete: storage follows the true completion order of
the wait events, not the pipeline position, and PrintStatistics walks the
slots in that same order. -/
theorem C2_slots (clk : Nat) (env : Nat → ProcInfo) (evs : List WaitEv) (k : Nat)
    (hk : k < (completedPids evs).length) :
    (RunWaitLoop clk env evs 0 emptyStatsFun).1 k =
      SaveAndTerminateChild clk env ((completedPids evs).getD k 0) := by
  have := runWaitLoop_slot clk env evs 0 k emptyStatsFun hk
  rwa [Nat.zero_add] at this

/-- C2 witness: in the concrete two-stage run, slot 1 holds the record of
the second completer, pid 100. -/
theorem C2_slots_witness :
    (RunWaitLoop 100 c2Env c2Events 0 emptyStatsFun).1 1 =
      SaveAndTerminateChild 100 c2Env ((completedPids c2Events).getD 1 0) :=
  C2_slots 100 c2Env c2Events 1 (by decide)

/-- The collector trace never drops a reap: each completion contributes
its resolve-then-reap block. -/
theorem reapsOf_flatten (evs : List WaitEv) :
    reapsOf ((evs.map evActs).flatten) = completedPids evs := by
  induction evs with
  | nil => rfl
  | cons e rest ih =>
    cases e <;> simp [reapsOf, completedPids, evActs, List.filterMap_append] at ih ⊢ <;>
      exact ih

/-- C7: the wait loop of RunShell retries interrupted waits instead of
abandoning them: its action trace is exactly, per arriving event in
arrival order, a retried wait for an EINTR interruption and a
non-consuming resolve immediately followed by the definitive reap of the
reported pid for a completion; consequently the reaped pids are the
completed pids in true completion order, and an interruption leaves the
collected statistics unchanged. -/
theorem C7_collector (clk : Nat) (env : Nat → ProcInfo) (evs : List WaitEv)
    (k : Nat) (st : Nat → Stats) :
    (RunWaitLoop clk env evs k st).2 = (evs.map evActs).flatten ∧
    reapsOf (RunWaitLoop clk env evs k st).2 = completedPids evs ∧
    (RunWaitLoop clk env (WaitEv.eintr :: evs) k st).1 =
      (RunWaitLoop clk env evs k st).1 := by
  have htr : ∀ (evs2 : List WaitEv) (k2 : Nat) (st2 : Nat → Stats),
      (RunWaitLoop clk env evs2 k2 st2).2 = (evs2.map evActs).flatten := by
    intro evs2
    induction evs2 with
    | nil => intro k2 st2; rfl
    | cons e rest ih =>
      intro k2 st2
      cases e <;> simp [RunWaitLoop, evActs, ih]
  refine ⟨htr evs k st, ?_, rfl⟩
  rw [htr evs k st]
  exact reapsOf_flatten evs

/-! ## Claim C8 -/

/-- C8: a completed record has exactly one disposition: its signal name is
non-empty precisely when the definitive reap reported signal termination,
in which case the name is the strsignal text written after the reap and
the printed line carries the signal name; otherwise the signal name stays
empty and the printed line carries the numeric exit code. -/
theorem C8_disposition (clk : Nat) (env : Nat → ProcInfo) (pid : Nat) (r : Stats)
    (hr : r = SaveAndTerminateChild clk env pid) :
    (r.exsig ≠ "" ↔ wifsignaled (env pid).waitStatus = true) ∧
    (wifsignaled (env pid).waitStatus = true →
      r.exsig = strsignal (wtermsig (env pid).waitStatus) ∧
      statLine r = ReportLine.signaled r.pid r.cmd r.state r.exsig r.ppid
        r.user r.sys r.vctx r.nvctx) ∧
    (wifsignaled (env pid).waitStatus = false →
      r.exsig = "" ∧
      statLine r = ReportLine.normal r.pid r.cmd r.state r.excode r.ppid
        r.user r.sys r.vctx r.nvctx) := by
  by_cases hs : wifsignaled (env pid).waitStatus = true
  · have hex : r.exsig = strsignal (wtermsig (env pid).waitStatus) := by
      rw [hr]
      simp [SaveAndTerminateChild, hs]
    have hne : r.exsig ≠ "" := by
      rw [hex]; exact strsignal_ne_empty _
    refine ⟨by simp [hne, hs], fun _ => ⟨hex, ?_⟩, fun hf => by rw [hf] at hs; simp at hs⟩
    have : (r.exsig == "") = false := by
      cases h : r.exsig == "" with
      | true => exact absurd (by simpa using h) hne
      | false => rfl
    simp [statLine, this]
  · have hs2 : wifsignaled (env pid).waitStatus = false := by
      cases h : wifsignaled (env pid).waitStatus with
      | true => exact absurd h hs
      | false => rfl
    have hex : r.exsig = "" := by
      rw [hr]
      simp [SaveAndTerminateChild, hs2, SaveStatisticsFromStatus, SaveStatisticsFromStat]
    refine ⟨by simp [hex, hs2], fun ht => absurd ht hs, fun _ => ⟨hex, ?_⟩⟩
    simp [statLine, hex]

/-- C8 witness: for a process reaped with raw wait status 15 (killed by
SIGTERM), the record carries the strsignal name and the printed line is
the signal-terminated form. -/
theorem C8_disposition_witness :
    (SaveAndTerminateChild 100 sigEnv 300).exsig =
      strsignal (wtermsig (sigEnv 300).waitStatus) ∧
    statLine (SaveAndTerminateChild 100 sigEnv 300) =
      ReportLine.signaled (SaveAndTerminateChild 100 sigEnv 300).pid
        (SaveAndTerminateChild 100 sigEnv 300).cmd
        (SaveAndTerminateChild 100 sigEnv 300).state
        (SaveAndTerminateChild 100 sigEnv 300).exsig
        (SaveAndTerminateChild 100 sigEnv 300).ppid
        (SaveAndTerminateChild 100 sigEnv 300).user
        (SaveAndTerminateChild 100 sigEnv 300).sys
        (SaveAndTerminateChild 100 sigEnv 300).vctx
        (SaveAndTerminateChild 100 sigEnv 300).nvctx :=
  (C8_disposition 100 sigEnv 300 (SaveAndTerminateChild 100 sigEnv 300) rfl).2.1
    (by decide)

/-! ## Barrier-machine lemmas and claim C1 -/

/-- One enabled barrier step preserves the invariant and the stage count. -/
theorem barrierStep_inv {s s2 : BarrierState} {a : BarrierAction}
    (hinv : BarrierInv s) (h : barrierStep s a = some s2) :
    BarrierInv s2 ∧ s2.n = s.n := by
  obtain ⟨hlen, hfork, hsent, hbc, hexec⟩ := hinv
  cases a with
  | fork =>
    simp only [barrierStep] at h
    split at h
    · rename_i hg
      injection h with h2
      subst h2
      refine ⟨⟨by simp [hlen], by dsimp only; omega, hsent, ?_, ?_⟩, rfl⟩
      · intro hp
        dsimp only at hp ⊢
        have := hbc hp
        omega
      · intro i hi
        dsimp only at hi ⊢
        rw [getD_set_general] at hi
        split at hi
        · exact absurd hi (by decide)
        · exact hexec i hi
    · exact absurd h (by simp)
  | wire j =>
    simp only [barrierStep] at h
    split at h
    · injection h with h2
      subst h2
      refine ⟨⟨by simp [hlen], hfork, hsent, hbc, ?_⟩, rfl⟩
      intro i hi
      rw [getD_set_general] at hi
      split at hi
      · exact absurd hi (by decide)
      · exact hexec i hi
    · exact absurd h (by simp)
  | broadcast =>
    simp only [barrierStep] at h
    split at h
    · rename_i hg
      obtain ⟨hg1, hg2⟩ := hg
      injection h with h2
      subst h2
      refine ⟨⟨hlen, hfork, by dsimp only; omega, fun _ => hg1, ?_⟩, rfl⟩
      intro i hi
      dsimp only at hi ⊢
      have := hexec i hi
      omega
    · exact absurd h (by simp)
  | wake j =>
    simp only [barrierStep] at h
    split at h
    · rename_i hg
      obtain ⟨hg1, hg2⟩ := hg
      injection h with h2
      subst h2
      refine ⟨⟨by simp [hlen], hfork, hsent, hbc, ?_⟩, rfl⟩
      intro i hi
      dsimp only at hi ⊢
      rw [getD_set_general] at hi
      split at hi
      · rename_i hc
        obtain ⟨hc1, hc2⟩ := hc
        omega
      · exact hexec i hi
    · exact absurd h (by simp)

/-- Running a schedule preserves the invariant and the stage count. -/
theorem runBarrier_inv :
    ∀ (acts : List BarrierAction) (s s2 : BarrierState), BarrierInv s →
      runBarrier s acts = some s2 → BarrierInv s2 ∧ s2.n = s.n := by
  intro acts
  induction acts with
  | nil =>
    intro s s2 hinv h
    simp only [runBarrier] at h
    injection h with h2
    subst h2
    exact ⟨hinv, rfl⟩
  | cons a rest ih =>
    intro s s2 hinv h
    simp only [runBarrier] at h
    cases hb : barrierStep s a with
    | none => rw [hb] at h; exact absurd h (by simp)
    | some s1 =>
      rw [hb] at h
      obtain ⟨hinv1, hn1⟩ := barrierStep_inv hinv hb
      obtain ⟨hinv2, hn2⟩ := ih s1 s2 hinv1 h
      exact ⟨hinv2, by rw [hn2, hn1]⟩

/-- The cycle-start state satisfies the invariant. -/
theorem initBarrier_inv (n : Nat) : BarrierInv (initBarrier n) := by
  refine ⟨by simp [initBarrier], Nat.zero_le n, Nat.zero_le n, by simp [initBarrier], ?_⟩
  intro i hi
  rw [show (initBarrier n).phases = List.replicate n ChildPhase.unborn from rfl,
    getD_replicate_unborn] at hi
  exact absurd hi (by decide)

/-- A single step only starts child i (moves it to suspended or beyond)
through the wire i action. -/
theorem phaseStarted_of_step {s s2 : BarrierState} {a : BarrierAction} {i : Nat}
    (h : barrierStep s a = some s2) (hp : PhaseStarted s2 i) :
    PhaseStarted s i ∨ a = BarrierAction.wire i := by
  cases a with
  | fork =>
    simp only [barrierStep] at h
    split at h
    · injection h with h2
      subst h2
      left
      rcases hp with h1 | h1 <;> rw [getD_set_general] at h1 <;> split at h1 <;>
        first
          | exact absurd h1 (by decide)
          | exact Or.inl h1
          | exact Or.inr h1
    · exact absurd h (by simp)
  | wire j =>
    simp only [barrierStep] at h
    split at h
    · injection h with h2
      subst h2
      rcases hp with h1 | h1 <;> rw [getD_set_general] at h1 <;> split at h1
      · rename_i hc
        right
        rw [hc.1]
      · exact Or.inl (Or.inl h1)
      · exact absurd h1 (by decide)
      · exact Or.inl (Or.inr h1)
    · exact absurd h (by simp)
  | broadcast =>
    simp only [barrierStep] at h
    split at h
    · injection h with h2
      subst h2
      exact Or.inl hp
    · exact absurd h (by simp)
  | wake j =>
    simp only [barrierStep] at h
    split at h
    · rename_i hg
      injection h with h2
      subst h2
      left
      rcases hp with h1 | h1 <;> rw [getD_set_general] at h1 <;> split at h1
      · exact absurd h1 (by decide)
      · exact Or.inl h1
      · rename_i hc
        rw [← hc.1]
        exact Or.inl hg.1
      · exact Or.inr h1
    · exact absurd h (by simp)

/-- Across a whole schedule, a started child was either already started
or some wire step for it occurs in the schedule. -/
theorem runBarrier_started (i : Nat) :
    ∀ (acts : List BarrierAction) (s s2 : BarrierState),
      runBarrier s acts = some s2 → PhaseStarted s2 i →
      PhaseStarted s i ∨ BarrierAction.wire i ∈ acts := by
  intro acts
  induction acts with
  | nil =>
    intro s s2 h hp
    simp only [runBarrier] at h
    injection h with h2
    subst h2
    exact Or.inl hp
  | cons a rest ih =>
    intro s s2 h hp
    simp only [runBarrier] at h
    cases hb : barrierStep s a with
    | none => rw [hb] at h; exact absurd h (by simp)
    | some s1 =>
      rw [hb] at h
      rcases ih s1 s2 h hp with hstart | hmem
      · rcases phaseStarted_of_step hb hstart with hs0 | rfl
        · exact Or.inl hs0
        · exact Or.inr (List.mem_cons_self _ _)
      · exact Or.inr (List.mem_cons_of_mem a hmem)

/-- C1 (amended): in every reachable state of the embedded barrier
machine, a release signal has only ever been sent after the whole fork
loop finished, and a child that has replaced its image was forked after
all n stages were forked, completed its own descriptor setup (a wire step
for it occurs in the schedule) and received its release; the machine
encodes that the release signal is blocked from shell start and that each
child suspends for exactly that signal after its setup.  The code does
not, however, make any child wait for the setup of its siblings. -/
theorem C1_barrier (n : Nat) (acts : List BarrierAction) (s : BarrierState)
    (h : runBarrier (initBarrier n) acts = some s) :
    (0 < s.sent → s.forked = n) ∧
    (∀ i, s.phases.getD i ChildPhase.unborn = ChildPhase.execed →
      s.forked = n ∧ i < s.sent ∧ BarrierAction.wire i ∈ acts) := by
  obtain ⟨hinv, hn⟩ := runBarrier_inv acts (initBarrier n) s (initBarrier_inv n) h
  have hn2 : s.n = n := hn
  refine ⟨?_, ?_⟩
  · intro hp
    rw [← hn2]
    exact hinv.2.2.2.1 hp
  · intro i hi
    have hsent : i < s.sent := hinv.2.2.2.2 i hi
    have hforked : s.forked = n := by
      rw [← hn2]
      exact hinv.2.2.2.1 (by omega)
    refine ⟨hforked, hsent, ?_⟩
    rcases runBarrier_started i acts (initBarrier n) s h (Or.inr hi) with hstart | hmem
    · rcases hstart with h1 | h1 <;>
        rw [show (initBarrier n).phases = List.replicate n ChildPhase.unborn from rfl,
          getD_replicate_unborn] at h1 <;> exact absurd h1 (by decide)
    · exact hmem

/-- C1 witness: the fully synchronised two-stage schedule reaches the
state where both children execed, and the theorem applies to child 0. -/
theorem C1_barrier_witness :
    c1FinalState.forked = 2 ∧ 0 < c1FinalState.sent ∧
    BarrierAction.wire 0 ∈ c1GoodTrace := by
  have := (C1_barrier 2 c1GoodTrace c1FinalState (by decide)).2 0 (by decide)
  exact ⟨this.1, by omega, this.2.2⟩

/-- C1 counterexample: the schedule c1CexTrace is a legal run of the
embedded machine: the parent forks both children and broadcasts, child 0
completes its setup, suspends, receives the release and execs, while
child 1 is still in its descriptor setup.  So the claim that no stage
replaces its image until EVERY stage has completed its descriptor
binding/closing and reached its suspend point is false: the broadcast
happens after the last fork, not after the last child reaches
sigsuspend. -/
theorem C1_counterexample :
    runBarrier (initBarrier 2) c1CexTrace = some c1CexState ∧
    c1CexState.phases.getD 0 ChildPhase.unborn = ChildPhase.execed ∧
    c1CexState.phases.getD 1 ChildPhase.unborn = ChildPhase.wiring := by
  decide

/-! ## Claim C4 -/

/-- C4: the pipe topology.  For every stage count n between 1 and 5 and
stage index i: a single stage performs no descriptor action (it inherits
the controller's streams) and no pipe exists; stage 0 rebinds exactly
channel 0's write end onto stdout; stage n-1 rebinds exactly channel
n-2's read end onto stdin; an interior stage rebinds channel i-1's read
end onto stdin and channel i's write end onto stdout; every stage closes
both ends of every channel (hence every end it does not bind, adjacent or
not); the controller closes both ends of all n-1 channels, and its cycle
effects put all closes in the segment after the fork segment. -/
theorem C4_topology (n i : Nat) (h1 : 1 ≤ n) (h5 : n ≤ 5) (hi : i < n) :
    (n = 1 → childFdActions n i = [] ∧ parentCloseEffects n = [] ∧
      (∀ pok : Nat → Bool, ExecuteCommandsEffects pok n = [Effect.forkChild 0])) ∧
    (1 < n → i = 0 →
      dupsOf (childFdActions n i) = [FdAction.dup 0 PipeEnd.writeEnd 1]) ∧
    (1 < n → i = n - 1 →
      dupsOf (childFdActions n i) = [FdAction.dup (n - 2) PipeEnd.readEnd 0]) ∧
    (0 < i → i < n - 1 →
      dupsOf (childFdActions n i) =
        [FdAction.dup (i - 1) PipeEnd.readEnd 0, FdAction.dup i PipeEnd.writeEnd 1]) ∧
    (1 < n → ∀ c, c < n - 1 → ∀ e : PipeEnd,
      FdAction.closeFd c e ∈ childFdActions n i) ∧
    (∀ c, c < n - 1 → ∀ e : PipeEnd, Effect.closePipeFd c e ∈ parentCloseEffects n) ∧
    (∀ pok : Nat → Bool,
      pipelineEffects pok n =
        ExecuteCommandsEffects pok n ++ releaseEffects n ++ parentCloseEffects n ∧
      ∀ j, j < n → Effect.forkChild j ∈ ExecuteCommandsEffects pok n) := by
  refine ⟨?_, ?_, ?_, ?_, ?_, ?_, ?_⟩
  · intro hn1
    subst hn1
    refine ⟨by simp [childFdActions], by simp [parentCloseEffects], ?_⟩
    intro pok
    simp [ExecuteCommandsEffects, List.range_succ]
  · intro h2 h0
    subst h0
    rw [childFdActions, if_pos h2, if_pos rfl, dupsOf_cons_dup, dupsOf_closeAllPipes]
  · intro h2 hlast
    have hne : i ≠ 0 := by omega
    rw [childFdActions, if_pos h2, if_neg hne, if_pos hlast, dupsOf_cons_dup,
      dupsOf_closeAllPipes, show i - 1 = n - 2 by omega]
  · intro hpos hint
    have h2 : 1 < n := by omega
    have hne : i ≠ 0 := by omega
    have hne2 : i ≠ n - 1 := by omega
    rw [childFdActions, if_pos h2, if_neg hne, if_neg hne2, dupsOf_cons_dup,
      dupsOf_cons_dup, dupsOf_closeAllPipes]
  · intro h2 c hc e
    rw [childFdActions, if_pos h2]
    split_ifs with ha hb
    · exact List.mem_cons_of_mem _ (mem_closeAllPipes hc e)
    · exact List.mem_cons_of_mem _ (mem_closeAllPipes hc e)
    · exact List.mem_cons_of_mem _ (List.mem_cons_of_mem _ (mem_closeAllPipes hc e))
  · intro c hc e
    exact mem_parentCloseEffects hc e
  · intro pok
    refine ⟨rfl, ?_⟩
    intro j hj
    exact List.mem_append.mpr
      (Or.inr (List.mem_map_of_mem _ (List.mem_range.mpr hj)))

/-- C4 witness: in a three-stage pipeline, the interior stage rebinds
channel 0's read end onto stdin and channel 1's write end onto stdout. -/
theorem C4_topology_witness :
    dupsOf (childFdActions 3 1) =
      [FdAction.dup 0 PipeEnd.readEnd 0, FdAction.dup 1 PipeEnd.writeEnd 1] :=
  (C4_topology 3 1 (by decide) (by decide) (by decide)).2.2.2.1 (by decide) (by decide)

/-! ## Claim C9 -/

/-- C9: the interrupt signal.  The handler raises the received flag only
when the controller is waiting for input, changes nothing when it is not
(and nothing on SIGUSR1); it never kills or exits.  A SIGINT delivered
while the controller is blocked reading input makes the cycle discard the
pending line (the descriptor is forced invalid, so the cycle refreshes,
prints nothing and runs no pipeline) and clears the flag for the next
prompt; a SIGINT delivered while waiting for completions merely interrupts
the wait, and the retried wait leaves the collected statistics of the
in-flight pipeline unchanged. -/
theorem C9_interrupt (f : ShellFlags) (clk : Nat) (inp : CycleIn) (f0 : ShellFlags)
    (env : Nat → ProcInfo) (pok : Nat → Bool) :
    (f.is_waiting_input = true →
      SignalHandler sigintNum f = { f with sigint_received := true }) ∧
    (f.is_waiting_input = false → SignalHandler sigintNum f = f) ∧
    SignalHandler sigusr1Num f = f ∧
    (inp.sigintDuringRead = true →
      (shellCycle clk inp f0 env pok).result = CycleResult.reprompt ∧
      (shellCycle clk inp f0 env pok).flags.sigint_received = false ∧
      (shellCycle clk inp f0 env pok).effects = []) ∧
    (∀ (evs : List WaitEv) (k : Nat) (st : Nat → Stats),
      (RunWaitLoop clk env (WaitEv.eintr :: evs) k st).1 =
        (RunWaitLoop clk env evs k st).1) := by
  refine ⟨?_, ?_, ?_, ?_, fun evs k st => rfl⟩
  · intro h
    simp [SignalHandler, sigintNum, h]
  · intro h
    simp [SignalHandler, sigintNum, h]
  · simp [SignalHandler, sigusr1Num, sigintNum]
  · intro h
    have hflags : (cycleFlagsAfterRead inp f0).sigint_received = true := by
      simp [cycleFlagsAfterRead, h, SignalHandler, sigintNum]
    have hcmd : checkedCmd inp f0 = { inp.parsed with is_valid := false } := by
      simp [checkedCmd, hflags]
    have hres : (CheckExceptions (checkedCmd inp f0)).result = CheckResult.refresh := by
      rw [hcmd]
      simp [CheckExceptions]
    have hout : (CheckExceptions (checkedCmd inp f0)).output = [] := by
      rw [hcmd]
      simp [CheckExceptions]
    have hff : (cycleFlagsFinal inp f0).sigint_received = false := by
      simp [cycleFlagsFinal, hflags]
    refine ⟨?_, ?_, ?_⟩ <;> unfold shellCycle <;> rw [hres] <;> simp [hff, hout]

/-- C9 witness: a concrete cycle in which SIGINT arrives during the read
discards the line, clears the flag and produces no effect. -/
theorem C9_interrupt_witness :
    (shellCycle 100 c9In ⟨false, false⟩ c2Env (fun _ => true)).result =
      CycleResult.reprompt ∧
    (shellCycle 100 c9In ⟨false, false⟩ c2Env (fun _ => true)).flags.sigint_received =
      false ∧
    (shellCycle 100 c9In ⟨false, false⟩ c2Env (fun _ => true)).effects = [] :=
  (C9_interrupt ⟨false, false⟩ 100 c9In ⟨false, false⟩ c2Env (fun _ => true)).2.2.2.1 rfl

/-! ## Claim C10 -/

/-- The fgets loop consumes at most its budget. -/
theorem fgetsChars_length_le (b : Nat) : ∀ s : List Char, (fgetsChars b s).length ≤ b := by
  induction b with
  | zero => intro s; simp [fgetsChars]
  | succ b ih =>
    intro s
    cases s with
    | nil => simp [fgetsChars]
    | cons c rest =>
      simp only [fgetsChars]
      split
      · simp
      · simp only [List.length_cons]
        have := ih rest
        omega

/-- On a long newline-free stream the fgets loop takes exactly its
budget. -/
theorem fgetsChars_take : ∀ (b : Nat) (s : List Char), b ≤ s.length →
    (∀ c ∈ s.take b, c ≠ Char.ofNat 10) → fgetsChars b s = s.take b := by
  intro b
  induction b with
  | zero => intro s _ _; simp [fgetsChars]
  | succ b ih =>
    intro s hlen hnl
    cases s with
    | nil => simp at hlen
    | cons c rest =>
      have hc : c ≠ Char.ofNat 10 := hnl c (by simp)
      simp only [fgetsChars, if_neg hc, List.take_succ_cons]
      exact congrArg (fun l => c :: l)
        (ih rest (by simp at hlen; omega)
          (fun x hx => hnl x (by simp [List.take_succ_cons, hx])))

/-- C10: the line read of GetInputCommands passes a 1025-byte buffer to
fgets (shell.c lines 252-253), so a single prompt cycle consumes at most
1024 characters of the input stream; on a line of at least 1024
characters with no newline among them, exactly the first 1024 characters
are consumed, splitting the over-long line at that boundary. -/
theorem C10_input_limit (raw : List Char) (hlen : 1024 ≤ raw.length)
    (hnl : ∀ c ∈ raw.take 1024, c ≠ Char.ofNat 10) :
    (∀ s : List Char, (fgetsModel 1025 s).length ≤ 1024) ∧
    (∀ (clk : Nat) (inp : CycleIn) (f0 : ShellFlags) (env : Nat → ProcInfo)
      (pok : Nat → Bool),
      (shellCycle clk inp f0 env pok).lineRead = fgetsModel 1025 inp.raw) ∧
    fgetsModel 1025 raw = raw.take 1024 := by
  refine ⟨?_, ?_, ?_⟩
  · intro s
    have := fgetsChars_length_le 1024 s
    simpa [fgetsModel] using this
  · intro clk inp f0 env pok
    unfold shellCycle
    cases hres : (CheckExceptions (checkedCmd inp f0)).result <;> simp [hres]
  · have := fgetsChars_take 1024 raw hlen hnl
    simpa [fgetsModel] using this

/-- C10 witness: a 1030-character newline-free line is cut after exactly
1024 characters. -/
theorem C10_input_limit_witness :
    fgetsModel 1025 (List.replicate 1030 inputChar) =
      (List.replicate 1030 inputChar).take 1024 :=
  (C10_input_limit (List.replicate 1030 inputChar)
    (by rw [List.length_replicate]; omega)
    (by
      intro c hc
      rw [List.take_replicate] at hc
      have hce := (List.mem_replicate.mp hc).2
      rw [hce]
      decide)).2.2

end Shell
